import Mathlib

/-!
Shallow embedding of the movie-app backend resolver logic.

The repository wires an AppSync GraphQL API to a DynamoDB table through
VTL request/response mapping templates
(src/lib/aws-movie-app-backend-stack.ts and the unnamed variant
src/unnamed/part_000).  The definitions below re-express those templates
as pure Lean functions over an explicit store state (a list of records
keyed by `id`).  Where the two source variants differ (listing strategy,
default page limit, empty-result response mapping) both variants are
modelled, suffixed `Lib` (src/lib file) and `Gsi` (src/unnamed/part_000,
which adds the CreatedByIndex global secondary index).
-/

namespace MovieApp

/-- A stored movie record, after graphql/schema.graphql type Movie:
id, title, optional publishingYear, optional poster, createdBy
(Cognito user id) and createdByEmail. -/
structure Movie where
  id : String
  title : String
  publishingYear : Option Int
  poster : Option String
  createdBy : String
  createdByEmail : String
deriving DecidableEq

/-- The caller identity as consulted by the templates: the Cognito
subject (ctx.identity.sub), the email claim, and the optional
cognito:groups claim (absent claim modelled as none). -/
structure Identity where
  sub : String
  email : String
  groups : Option (List String)
deriving DecidableEq

/-- Error kinds surfaced by util.error in the response templates. -/
inductive ErrKind where
  | NotFound
  | Unauthorized
  | StoreUnavailable
  | InvalidArgument
deriving DecidableEq

/-- The administrative group name checked by every resolver. -/
def adminGroup : String := "Admins"

/-- Admin test as performed by the templates: if the cognito:groups
claim is present, scan it for the administrative group; an absent claim
means not admin.  (The foreach loop setting isAdmin on a match is
exactly list membership of the group name.) -/
def isAdmin (ident : Identity) : Bool :=
  match ident.groups with
  | none => false
  | some gs => gs.contains adminGroup

/-- DynamoDB GetItem on the table keyed by id. -/
def getById (store : List Movie) (id : String) : Option Movie :=
  store.find? (fun m => m.id == id)

/-- getMovie resolver: GetItem, then the response template fails
NotFound when the result is empty, otherwise allows the caller iff
result.createdBy == identity.sub or the caller is an admin, failing
Unauthorized otherwise. -/
def getMovie (store : List Movie) (id : String) (ident : Identity) :
    Except ErrKind Movie :=
  match getById store id with
  | none => Except.error ErrKind.NotFound
  | some m =>
    if m.createdBy == ident.sub || isAdmin ident then Except.ok m
    else Except.error ErrKind.Unauthorized

/-- Caller-supplied arguments of createMovie: title, publishingYear,
poster.  The schema exposes no createdBy or createdByEmail argument. -/
structure CreateArgs where
  title : String
  publishingYear : Option Int
  poster : Option String
deriving DecidableEq

/-- createMovie resolver: PutItem under a server-generated id (modelled
as the parameter newId), stamping createdBy from identity.sub and
createdByEmail from the identity email claim.  The response template
returns the stored item; there is no authorization branch. -/
def createMovie (store : List Movie) (newId : String) (args : CreateArgs)
    (ident : Identity) : Movie × List Movie :=
  let m : Movie :=
    { id := newId
      title := args.title
      publishingYear := args.publishingYear
      poster := args.poster
      createdBy := ident.sub
      createdByEmail := ident.email }
  (m, m :: store.filter (fun old => !(old.id == newId)))

/-- Arguments of updateMovie apart from the id: the three mutable
fields, all resupplied on every call (the SET expression rewrites
exactly title, publishingYear and poster). -/
structure UpdateArgs where
  title : String
  publishingYear : Option Int
  poster : Option String
deriving DecidableEq

/-- Effect of the UpdateItem SET expression on one record: title,
publishingYear and poster are rewritten; every other attribute is
untouched. -/
def applyUpdate (args : UpdateArgs) (m : Movie) : Movie :=
  { m with
      title := args.title
      publishingYear := args.publishingYear
      poster := args.poster }

/-- updateMovie resolver: UpdateItem with condition
attribute_exists(id).  A failed condition (no record under that id) is
mapped by the response template to NotFound and the store is untouched.
Otherwise the write is applied, and only then does the response
template run the ownership/admin check on the post-update record,
failing Unauthorized without undoing the write. -/
def updateMovie (store : List Movie) (id : String) (args : UpdateArgs)
    (ident : Identity) : Except ErrKind Movie × List Movie :=
  match getById store id with
  | none => (Except.error ErrKind.NotFound, store)
  | some old =>
    let updated := applyUpdate args old
    let store2 := store.map (fun m => if m.id == id then applyUpdate args m else m)
    if updated.createdBy == ident.sub || isAdmin ident then
      (Except.ok updated, store2)
    else
      (Except.error ErrKind.Unauthorized, store2)

/-- deleteMovie resolver: DeleteItem removes the record and hands its
previous attributes to the response template, which fails NotFound on
an empty result and otherwise runs the ownership/admin check on the
already-deleted record, failing Unauthorized without restoring it. -/
def deleteMovie (store : List Movie) (id : String) (ident : Identity) :
    Except ErrKind Movie × List Movie :=
  match getById store id with
  | none => (Except.error ErrKind.NotFound, store)
  | some old =>
    let store2 := store.filter (fun m => !(m.id == id))
    if old.createdBy == ident.sub || isAdmin ident then
      (Except.ok old, store2)
    else
      (Except.error ErrKind.Unauthorized, store2)

/-- Result shape of listMovies: a page of items and an optional
continuation token (modelled as the next start position). -/
structure MovieConnection where
  items : List Movie
  nextToken : Option Nat
deriving DecidableEq

/-- One DynamoDB page over a list: read up to limit items starting at
position start; a continuation token is produced when the read stopped
before the end of the list. -/
def scanPage (l : List Movie) (limit start : Nat) : List Movie × Option Nat :=
  ((l.drop start).take limit,
   if start + limit < l.length then some (start + limit) else none)

/-- listMovies resolver of src/lib/aws-movie-app-backend-stack.ts:
default limit 11; admins get a plain Scan page; non-admins get a Scan
page post-filtered by createdBy = identity.sub.  The response template
maps an empty item list to items [] with a null nextToken, and passes
items and nextToken through verbatim otherwise. -/
def listMoviesLib (store : List Movie) (limitArg tok : Option Nat)
    (ident : Identity) : MovieConnection :=
  let limit := limitArg.getD 11
  let start := tok.getD 0
  let raw := scanPage store limit start
  let result : MovieConnection :=
    if isAdmin ident then { items := raw.1, nextToken := raw.2 }
    else { items := raw.1.filter (fun m => m.createdBy == ident.sub), nextToken := raw.2 }
  if result.items.isEmpty then { items := [], nextToken := none }
  else result

/-- listMovies resolver of src/unnamed/part_000: default limit 10;
admins get a plain Scan page; non-admins get a Query page on the
CreatedByIndex global secondary index keyed by createdBy, i.e. a page
over the sublist of records owned by the caller.  The response template
passes items and nextToken through with no empty-result branch. -/
def listMoviesGsi (store : List Movie) (limitArg tok : Option Nat)
    (ident : Identity) : MovieConnection :=
  let limit := limitArg.getD 10
  let start := tok.getD 0
  if isAdmin ident then
    let raw := scanPage store limit start
    { items := raw.1, nextToken := raw.2 }
  else
    let owned := store.filter (fun m => m.createdBy == ident.sub)
    let raw := scanPage owned limit start
    { items := raw.1, nextToken := raw.2 }

/-- Exhaustion of a paged listing: keep requesting pages, feeding each
continuation token back as the next start, concatenating the pages,
until the token is absent.  The fuel argument bounds the recursion; any
fuel at least covering the list length (with a positive limit) reaches
the end. -/
def drainPages (l : List Movie) (limit : Nat) : Nat → Nat → List Movie
  | _, 0 => []
  | start, Nat.succ fuel =>
    match scanPage l limit start with
    | (page, none) => page
    | (page, some s) => page ++ drainPages l limit s fuel

/-- Exhaustion of the filtered-Scan listing of the src/lib variant:
each raw Scan page is post-filtered by the ownership predicate before
being concatenated, and the raw token drives the next page. -/
def drainFilteredPages (l : List Movie) (p : Movie → Bool) (limit : Nat) :
    Nat → Nat → List Movie
  | _, 0 => []
  | start, Nat.succ fuel =>
    match scanPage l limit start with
    | (page, none) => page.filter p
    | (page, some s) => page.filter p ++ drainFilteredPages l p limit s fuel

/-- Ownership predicate used by both non-admin listing strategies. -/
def ownedBy (user : String) (m : Movie) : Bool := m.createdBy == user

/-- Every record the filtered full Scan of the src/lib variant returns
for a non-admin caller, over all pages until the scan is exhausted. -/
def nonAdminScanExhaustive (store : List Movie) (user : String) (limit : Nat) :
    List Movie :=
  drainFilteredPages store (ownedBy user) limit 0 store.length

/-- Every record the CreatedByIndex Query of the src/unnamed/part_000
variant returns for a non-admin caller, over all pages until the query
is exhausted. -/
def nonAdminQueryExhaustive (store : List Movie) (user : String) (limit : Nat) :
    List Movie :=
  drainPages (store.filter (ownedBy user)) limit 0 (store.filter (ownedBy user)).length

/-! Concrete fixtures used by witnesses and by the evaluation of the
post-hoc-authorization hazard. -/

/-- A record owned by user-a. -/
def movieM : Movie :=
  { id := "m1"
    title := "Inception"
    publishingYear := some 2010
    poster := none
    createdBy := "user-a"
    createdByEmail := "a@example.com" }

/-- A record owned by user-b. -/
def movieN : Movie :=
  { id := "m2"
    title := "Heat"
    publishingYear := some 1995
    poster := none
    createdBy := "user-b"
    createdByEmail := "b@example.com" }

/-- Identity of user-a; no cognito:groups claim at all. -/
def identA : Identity :=
  { sub := "user-a", email := "a@example.com", groups := none }

/-- Identity of user-b; an empty group list, hence not an admin. -/
def identB : Identity :=
  { sub := "user-b", email := "b@example.com", groups := some [] }

/-- An administrator identity: member of the administrative group. -/
def identAdmin : Identity :=
  { sub := "admin-1", email := "adm@example.com", groups := some [adminGroup] }

/-- Identity of user-c, who owns no record in the demo store. -/
def identC : Identity :=
  { sub := "user-c", email := "c@example.com", groups := none }

/-- A two-record store with a mix of owners. -/
def demoStore : List Movie := [movieM, movieN]

/-- Sample update arguments. -/
def demoArgs : UpdateArgs :=
  { title := "Inception 2", publishingYear := some 2011, poster := none }

/-- C1: for every stored record R and identity I, getMovie on R.id
returns R exactly when I is in the administrative group or I.sub equals
R.createdBy, and fails with kind Unauthorized in every other case. -/
theorem getMovie_access_control (store : List Movie) (R : Movie) (ident : Identity)
    (hR : getById store R.id = some R) :
    (getMovie store R.id ident = Except.ok R ↔
      (isAdmin ident = true ∨ ident.sub = R.createdBy)) ∧
    (¬ (isAdmin ident = true ∨ ident.sub = R.createdBy) →
      getMovie store R.id ident = Except.error ErrKind.Unauthorized) := by
  have h : getMovie store R.id ident =
      (if R.createdBy == ident.sub || isAdmin ident then Except.ok R
       else Except.error ErrKind.Unauthorized) := by
    unfold getMovie
    rw [hR]
  rw [h]
  by_cases hadm : isAdmin ident = true
  · simp [hadm]
  · by_cases hown : R.createdBy = ident.sub
    · simp [hadm, hown]
    · have hbeq : (R.createdBy == ident.sub) = false := by
        simpa using hown
      simp [hadm, hbeq]
      intro heq
      exact hown heq.symm

/-- Witness for C1 at a concrete store: the owner reads the record back
and a non-admin stranger is rejected with Unauthorized. -/
theorem getMovie_access_control_witness :
    getMovie demoStore movieM.id identA = Except.ok movieM ∧
    getMovie demoStore movieM.id identB = Except.error ErrKind.Unauthorized := by
  constructor
  · exact (getMovie_access_control demoStore movieM identA rfl).1.mpr (Or.inr rfl)
  · exact (getMovie_access_control demoStore movieM identB rfl).2 (by decide)

/-- C2 evaluation: user-b (non-admin, not the owner) deletes movie m1
owned by user-a.  The call does fail with kind Unauthorized, but the
DeleteItem has already removed the record, so afterwards even the owner
and an administrator get NotFound: the store is mutated despite the
denied result, contradicting the required scenario. -/
theorem deleteMovie_unauthorized_still_deletes :
    (deleteMovie demoStore movieM.id identB).1 = Except.error ErrKind.Unauthorized ∧
    getMovie (deleteMovie demoStore movieM.id identB).2 movieM.id identA =
      Except.error ErrKind.NotFound ∧
    getMovie (deleteMovie demoStore movieM.id identB).2 movieM.id identAdmin =
      Except.error ErrKind.NotFound := by
  refine ⟨rfl, rfl, rfl⟩

/-- C4: createMovie always succeeds, stamps createdBy and
createdByEmail from the verified identity (the argument structure has
no such fields to take them from), copies the three caller arguments,
and stores the record under the generated id. -/
theorem createMovie_stamps_identity (store : List Movie) (newId : String)
    (args : CreateArgs) (ident : Identity) :
    (createMovie store newId args ident).1.createdBy = ident.sub ∧
    (createMovie store newId args ident).1.createdByEmail = ident.email ∧
    (createMovie store newId args ident).1.title = args.title ∧
    (createMovie store newId args ident).1.publishingYear = args.publishingYear ∧
    (createMovie store newId args ident).1.poster = args.poster ∧
    getById (createMovie store newId args ident).2 newId =
      some (createMovie store newId args ident).1 := by
  refine ⟨rfl, rfl, rfl, rfl, rfl, ?_⟩
  simp [createMovie, getById]

/-- C5: updateMovie on an id with no record fails with kind NotFound
(the conditional-write failure surfaced as NotFound) and leaves the
store exactly as it was: no record is created. -/
theorem updateMovie_missing_notFound (store : List Movie) (id : String)
    (args : UpdateArgs) (ident : Identity) (h : getById store id = none) :
    updateMovie store id args ident = (Except.error ErrKind.NotFound, store) := by
  unfold updateMovie
  rw [h]

/-- Witness for C5 on the empty store. -/
theorem updateMovie_missing_notFound_witness :
    updateMovie [] movieM.id demoArgs identA = (Except.error ErrKind.NotFound, []) :=
  updateMovie_missing_notFound [] movieM.id demoArgs identA rfl

/-- C8: getMovie on an id with no record fails with kind NotFound for
every identity, admin or not: the result-empty branch runs before the
authorization branch. -/
theorem getMovie_missing_notFound (store : List Movie) (id : String)
    (ident : Identity) (h : getById store id = none) :
    getMovie store id ident = Except.error ErrKind.NotFound := by
  unfold getMovie
  rw [h]

/-- Witness for C8: even an administrator gets NotFound on a missing id. -/
theorem getMovie_missing_notFound_witness :
    getMovie [movieN] movieM.id identAdmin = Except.error ErrKind.NotFound :=
  getMovie_missing_notFound [movieN] movieM.id identAdmin rfl

/-- The UpdateItem SET expression never touches the key. -/
theorem applyUpdate_id (args : UpdateArgs) (m : Movie) :
    (applyUpdate args m).id = m.id := rfl

/-- Lookup commutes with a per-record rewrite that preserves ids. -/
theorem getById_map_of_id_eq (store : List Movie) (id : String) (f : Movie → Movie)
    (hf : ∀ m, (f m).id = m.id) :
    getById (store.map f) id = (getById store id).map f := by
  induction store with
  | nil => rfl
  | cons m rest ih =>
    show List.find? (fun x => x.id == id) (f m :: rest.map f) = _
    by_cases hc : (m.id == id) = true
    · have hc2 : (fun x : Movie => x.id == id) m = true := hc
      have hfc : (fun x : Movie => x.id == id) (f m) = true := by
        show ((f m).id == id) = true
        rw [hf m]
        exact hc
      rw [@List.find?_cons_of_pos Movie (fun x => x.id == id) (f m) (rest.map f) hfc,
        getById, @List.find?_cons_of_pos Movie (fun x => x.id == id) m rest hc2]
      rfl
    · have hc2 : ¬ (fun x : Movie => x.id == id) m = true := hc
      have hfc : ¬ (fun x : Movie => x.id == id) (f m) = true := by
        show ¬ ((f m).id == id) = true
        rw [hf m]
        exact hc
      rw [@List.find?_cons_of_neg Movie (fun x => x.id == id) (f m) (rest.map f) hfc,
        getById, @List.find?_cons_of_neg Movie (fun x => x.id == id) m rest hc2]
      exact ih

/-- When the record exists, the store after updateMovie is the original
store with the SET expression applied at the key, whether the call was
then allowed or denied. -/
theorem updateMovie_store_of_found (store : List Movie) (id : String)
    (args : UpdateArgs) (ident : Identity) (R : Movie)
    (hR : getById store id = some R) :
    (updateMovie store id args ident).2 =
      store.map (fun m => if m.id == id then applyUpdate args m else m) := by
  unfold updateMovie
  rw [hR]
  dsimp only
  split <;> rfl

/-- C6: updating an existing record rewrites exactly title,
publishingYear and poster; the stored record keeps its id, createdBy
and createdByEmail. -/
theorem updateMovie_preserves_identity_fields (store : List Movie) (id : String)
    (args : UpdateArgs) (ident : Identity) (R : Movie)
    (hR : getById store id = some R) :
    ∃ R2, getById (updateMovie store id args ident).2 id = some R2 ∧
      R2.id = R.id ∧ R2.createdBy = R.createdBy ∧
      R2.createdByEmail = R.createdByEmail ∧
      R2.title = args.title ∧ R2.publishingYear = args.publishingYear ∧
      R2.poster = args.poster := by
  have hR2 : store.find? (fun m => m.id == id) = some R := hR
  have hid : (R.id == id) = true :=
    @List.find?_some Movie (fun m => m.id == id) R store hR2
  have hmap := getById_map_of_id_eq store id
    (fun m => if m.id == id then applyUpdate args m else m)
    (fun m => by by_cases hm : (m.id == id) = true <;> simp [hm, applyUpdate_id])
  refine ⟨applyUpdate args R, ?_, rfl, rfl, rfl, rfl, rfl, rfl⟩
  rw [updateMovie_store_of_found store id args ident R hR, hmap, hR]
  have hpe : R.id = id := by simpa using hid
  simp [hpe]

/-- Witness for C6 on the demo store. -/
theorem updateMovie_preserves_identity_fields_witness :
    ∃ R2, getById (updateMovie demoStore movieM.id demoArgs identA).2 movieM.id =
        some R2 ∧
      R2.id = movieM.id ∧ R2.createdBy = movieM.createdBy ∧
      R2.createdByEmail = movieM.createdByEmail ∧
      R2.title = demoArgs.title ∧ R2.publishingYear = demoArgs.publishingYear ∧
      R2.poster = demoArgs.poster :=
  updateMovie_preserves_identity_fields demoStore movieM.id demoArgs identA movieM rfl

/-- The SET expression is idempotent on a record. -/
theorem applyUpdate_applyUpdate (args : UpdateArgs) (m : Movie) :
    applyUpdate args (applyUpdate args m) = applyUpdate args m := rfl

/-- C7: repeating the same updateMovie call leaves the store exactly as
one call left it, both when the record exists (the three fields are
rewritten to the same values) and when it does not (both calls fail
NotFound without writing). -/
theorem updateMovie_idempotent (store : List Movie) (id : String)
    (args : UpdateArgs) (ident : Identity) :
    (updateMovie (updateMovie store id args ident).2 id args ident).2 =
      (updateMovie store id args ident).2 := by
  cases h : getById store id with
  | none =>
    have h1 : updateMovie store id args ident = (Except.error ErrKind.NotFound, store) := by
      unfold updateMovie
      rw [h]
    rw [h1]
    rw [h1]
  | some R =>
    have hstep := updateMovie_store_of_found store id args ident R h
    have hmap := getById_map_of_id_eq store id
      (fun m => if m.id == id then applyUpdate args m else m)
      (fun m => by by_cases hm : (m.id == id) = true <;> simp [hm, applyUpdate_id])
    have hfound2 : getById (updateMovie store id args ident).2 id =
        some (if R.id == id then applyUpdate args R else R) := by
      rw [hstep, hmap, h]
      rfl
    have hstep2 := updateMovie_store_of_found (updateMovie store id args ident).2 id
      args ident _ hfound2
    rw [hstep2, hstep, List.map_map]
    apply List.map_congr_left
    intro m _
    by_cases hm : (m.id == id) = true
    · simp [Function.comp, hm, applyUpdate_id, applyUpdate_applyUpdate]
    · simp [Function.comp, hm]

/-- A page with no items can only arise at or past the end of the
list (for a positive limit), so it carries no continuation token. -/
theorem scanPage_empty_token (l : List Movie) (limit start : Nat) (hl : 1 ≤ limit)
    (h : (scanPage l limit start).1 = []) : (scanPage l limit start).2 = none := by
  unfold scanPage at h ⊢
  rcases List.take_eq_nil_iff.mp h with h0 | h0
  · omega
  · have hle := List.drop_eq_nil_iff.mp h0
    exact if_neg (by omega)

/-- Exhausting a paged listing with a positive limit and enough fuel
returns every element from the start position on. -/
theorem drainPages_eq (l : List Movie) (limit : Nat) (hl : 1 ≤ limit) :
    ∀ fuel start, l.length ≤ start + limit * fuel →
      drainPages l limit start fuel = l.drop start := by
  intro fuel
  induction fuel with
  | zero =>
    intro start h
    have h0 : l.drop start = [] := List.drop_eq_nil_iff.mpr (by simpa using h)
    rw [h0]
    rfl
  | succ fuel ih =>
    intro start h
    by_cases h2 : start + limit < l.length
    · have heq : drainPages l limit start (fuel + 1) =
          (l.drop start).take limit ++ drainPages l limit (start + limit) fuel := by
        simp [drainPages, scanPage, h2]
      rw [heq, ih (start + limit) (by rw [Nat.mul_succ] at h; omega)]
      exact List.drop_take_append_drop l start limit
    · have heq : drainPages l limit start (fuel + 1) = (l.drop start).take limit := by
        simp [drainPages, scanPage, h2]
      rw [heq]
      apply List.take_of_length_le
      rw [List.length_drop]
      omega

/-- Exhausting the per-page-filtered listing with a positive limit and
enough fuel returns exactly the matching elements from the start on. -/
theorem drainFilteredPages_eq (l : List Movie) (p : Movie → Bool) (limit : Nat)
    (hl : 1 ≤ limit) :
    ∀ fuel start, l.length ≤ start + limit * fuel →
      drainFilteredPages l p limit start fuel = (l.drop start).filter p := by
  intro fuel
  induction fuel with
  | zero =>
    intro start h
    have h0 : l.drop start = [] := List.drop_eq_nil_iff.mpr (by simpa using h)
    rw [h0]
    rfl
  | succ fuel ih =>
    intro start h
    by_cases h2 : start + limit < l.length
    · have heq : drainFilteredPages l p limit start (fuel + 1) =
          ((l.drop start).take limit).filter p ++
            drainFilteredPages l p limit (start + limit) fuel := by
        simp [drainFilteredPages, scanPage, h2]
      rw [heq, ih (start + limit) (by rw [Nat.mul_succ] at h; omega),
        ← List.filter_append, List.drop_take_append_drop]
    · have heq : drainFilteredPages l p limit start (fuel + 1) =
          ((l.drop start).take limit).filter p := by
        simp [drainFilteredPages, scanPage, h2]
      rw [heq, List.take_of_length_le (by rw [List.length_drop]; omega)]

/-- C10: for any positive page limit, the filtered full Scan (src/lib
variant) and the CreatedByIndex Query (src/unnamed/part_000 variant),
each exhausted through its own continuation tokens, return the same set
of records for a non-admin caller: both yield exactly the records whose
createdBy equals the caller. -/
theorem nonAdmin_listing_strategies_agree (store : List Movie) (user : String)
    (limit : Nat) (hl : 1 ≤ limit) :
    ∀ m : Movie, m ∈ nonAdminScanExhaustive store user limit ↔
      m ∈ nonAdminQueryExhaustive store user limit := by
  have h1 : nonAdminScanExhaustive store user limit = store.filter (ownedBy user) := by
    unfold nonAdminScanExhaustive
    rw [drainFilteredPages_eq store (ownedBy user) limit hl store.length 0
      (by simpa using Nat.le_mul_of_pos_left store.length hl)]
    rw [List.drop_zero]
  have h2 : nonAdminQueryExhaustive store user limit = store.filter (ownedBy user) := by
    unfold nonAdminQueryExhaustive
    rw [drainPages_eq (store.filter (ownedBy user)) limit hl
      (store.filter (ownedBy user)).length 0
      (by simpa using Nat.le_mul_of_pos_left (store.filter (ownedBy user)).length hl)]
    rw [List.drop_zero]
  rw [h1, h2]
  intro m
  rfl

/-- Witness for C10 on the demo store with page limit 1 (each scan page
holds one raw record, so pages differ between the strategies). -/
theorem nonAdmin_listing_strategies_agree_witness :
    movieM ∈ nonAdminScanExhaustive demoStore movieM.createdBy 1 ↔
      movieM ∈ nonAdminQueryExhaustive demoStore movieM.createdBy 1 :=
  nonAdmin_listing_strategies_agree demoStore movieM.createdBy 1 (by decide) movieM

/-- C3: in both variants, a non-admin caller only ever sees records
whose createdBy is the caller's own subject, on every page; an admin
caller with a page limit covering the table sees every record, whatever
mix of owners the store holds. -/
theorem listMovies_scope (store : List Movie) (ident : Identity)
    (limitArg tok : Option Nat) :
    (isAdmin ident = false →
      (∀ m ∈ (listMoviesLib store limitArg tok ident).items, m.createdBy = ident.sub) ∧
      (∀ m ∈ (listMoviesGsi store limitArg tok ident).items, m.createdBy = ident.sub)) ∧
    (isAdmin ident = true → tok = none → store.length ≤ limitArg.getD 11 →
      (listMoviesLib store limitArg tok ident).items = store) ∧
    (isAdmin ident = true → tok = none → store.length ≤ limitArg.getD 10 →
      (listMoviesGsi store limitArg tok ident).items = store) := by
  refine ⟨fun hna => ⟨?_, ?_⟩, ?_, ?_⟩
  · intro m hm
    simp only [listMoviesLib, hna, Bool.false_eq_true, if_false] at hm
    split at hm
    · simp at hm
    · exact (by simpa using (List.mem_filter.mp hm).2 : m.createdBy = ident.sub)
  · intro m hm
    simp only [listMoviesGsi, hna, Bool.false_eq_true, if_false] at hm
    have hdrop := List.mem_of_mem_take hm
    have hfil := List.mem_of_mem_drop hdrop
    exact (by simpa using (List.mem_filter.mp hfil).2 : m.createdBy = ident.sub)
  · intro hadm htok hlen
    subst htok
    cases store with
    | nil => simp [listMoviesLib, hadm, scanPage]
    | cons a rest =>
      simp only [listMoviesLib, hadm, if_true, scanPage, Option.getD_none,
        List.drop_zero] at hlen ⊢
      rw [List.take_of_length_le hlen]
      simp
  · intro hadm htok hlen
    subst htok
    simp only [listMoviesGsi, hadm, if_true, scanPage, Option.getD_none,
      List.drop_zero] at hlen ⊢
    rw [List.take_of_length_le hlen]

/-- Witness for C3: on the mixed-owner demo store, user-a only sees a
record they own, and the admin listing returns the whole store. -/
theorem listMovies_scope_witness :
    movieM.createdBy = identA.sub ∧
    (listMoviesLib demoStore none none identAdmin).items = demoStore ∧
    (listMoviesGsi demoStore none none identAdmin).items = demoStore := by
  refine ⟨?_, ?_, ?_⟩
  · exact ((listMovies_scope demoStore identA none none).1 rfl).1 movieM (by decide)
  · exact (listMovies_scope demoStore identAdmin none none).2.1 rfl rfl (by decide)
  · exact (listMovies_scope demoStore identAdmin none none).2.2 rfl rfl (by decide)

/-- The empty-result branch of the src/lib listMovies response
template: whichever way the branch resolves, a connection with no items
carries a null token. -/
theorem emptyCheck_null_token (c : MovieConnection) :
    (if c.items.isEmpty then ({ items := [], nextToken := none } : MovieConnection)
      else c).items = [] →
    (if c.items.isEmpty then ({ items := [], nextToken := none } : MovieConnection)
      else c).nextToken = none := by
  by_cases hc : c.items.isEmpty = true
  · rw [if_pos hc]
    intro _
    rfl
  · rw [if_neg hc]
    intro h
    exact absurd (by rw [h]; rfl) hc

/-- C9: in both variants a listMovies result with no items is a normal
success carrying an empty item list and a null continuation token: the
src/lib response template forces the token to null on an empty page,
and in the src/unnamed/part_000 variant an empty page (under a valid,
positive limit) only arises past the end of the listing, where no token
is produced. -/
theorem listMovies_empty_gives_null_token (store : List Movie) (ident : Identity)
    (limitArg tok : Option Nat) (hl : ∀ k, limitArg = some k → 1 ≤ k) :
    ((listMoviesLib store limitArg tok ident).items = [] →
      (listMoviesLib store limitArg tok ident).nextToken = none) ∧
    ((listMoviesGsi store limitArg tok ident).items = [] →
      (listMoviesGsi store limitArg tok ident).nextToken = none) := by
  have hpos : 1 ≤ limitArg.getD 10 ∧ 1 ≤ limitArg.getD 11 := by
    cases hA : limitArg with
    | none => exact ⟨by decide, by decide⟩
    | some k => exact ⟨by simp [hA]; exact hl k hA, by simp [hA]; exact hl k hA⟩
  constructor
  · intro hitems
    exact emptyCheck_null_token
      (if isAdmin ident then
        { items := (scanPage store (limitArg.getD 11) (tok.getD 0)).1
          nextToken := (scanPage store (limitArg.getD 11) (tok.getD 0)).2 }
       else
        { items := (scanPage store (limitArg.getD 11) (tok.getD 0)).1.filter
            (fun m => m.createdBy == ident.sub)
          nextToken := (scanPage store (limitArg.getD 11) (tok.getD 0)).2 })
      hitems
  · intro hitems
    by_cases hadm : isAdmin ident = true
    · have hit2 : (scanPage store (limitArg.getD 10) (tok.getD 0)).1 = [] := by
        simpa [listMoviesGsi, hadm] using hitems
      have := scanPage_empty_token store (limitArg.getD 10) (tok.getD 0) hpos.1 hit2
      simpa [listMoviesGsi, hadm] using this
    · have hit2 : (scanPage (store.filter (fun m => m.createdBy == ident.sub))
          (limitArg.getD 10) (tok.getD 0)).1 = [] := by
        simpa [listMoviesGsi, hadm] using hitems
      have := scanPage_empty_token (store.filter (fun m => m.createdBy == ident.sub))
        (limitArg.getD 10) (tok.getD 0) hpos.1 hit2
      simpa [listMoviesGsi, hadm] using this

/-- Witness for C9: user-c owns nothing, so the index-backed listing is
empty, succeeds, and carries no continuation token. -/
theorem listMovies_empty_gives_null_token_witness :
    (listMoviesGsi demoStore none none identC).items = [] ∧
    (listMoviesGsi demoStore none none identC).nextToken = none := by
  refine ⟨rfl, ?_⟩
  exact (listMovies_empty_gives_null_token demoStore identC none none
    (fun k hk => Option.noConfusion hk)).2 rfl

end MovieApp
